import Mathlib

/-!
Verification development for the codex-switcher presentation layer.

The TypeScript sources (hooks/useAccounts.ts, hooks/useUsage.ts, App.tsx,
components/AccountList.tsx, components/AddAccountModal.tsx,
components/UsageCard.tsx, components/Settings.tsx) are shallowly embedded
here: pure view helpers become Lean functions, the stateful hooks become
explicit state-passing functions whose remote-call outcomes are passed in
as `Except String` values (a JS rejection value is modelled by the string
`String(err)` produces for it), and `setTimeout` scheduling is modelled as
an explicit list of (delay in ms, effect) pairs.  JS numbers are modelled
as rationals.
-/

namespace CodexSwitcher

/-! ## String helpers (JS semantics) -/

/-- Numeric value of a list of decimal digit characters (the value
`parseInt` gives on a non-empty all-digit capture). -/
def digitsToNat (l : List Char) : Nat :=
  l.foldl (fun n c => n * 10 + (c.toNat - '0'.toNat)) 0

/-- Leftmost match of the JS regex `/(\d+)tok/` on a character list:
scan left to right; at a digit, take the maximal digit run from here and
succeed when `tok` immediately follows it, returning the run's value.
(The leftmost successful start of a match is always the start of a maximal
digit run, because a match from inside a run implies one from its start.) -/
def findNumBefore (tok : List Char) : List Char → Option Nat
  | [] => none
  | c :: rest =>
    if c.isDigit then
      if List.isPrefixOf tok (List.dropWhile Char.isDigit (c :: rest)) then
        some (digitsToNat (List.takeWhile Char.isDigit (c :: rest)))
      else findNumBefore tok rest
    else findNumBefore tok rest

/-- `hay.includes(needle)` on character lists. -/
def containsSub (needle : List Char) : List Char → Bool
  | [] => needle.isEmpty
  | c :: rest => List.isPrefixOf needle (c :: rest) || containsSub needle rest

/-- JS `String.prototype.includes`. -/
def strIncludes (hay needle : String) : Bool :=
  containsSub needle.toList hay.toList

/-- JS `String.prototype.toLowerCase` (on the ASCII letters this layer's
plan types use). -/
def jsToLower (s : String) : String :=
  String.mk (s.toList.map Char.toLower)

/-- JS `String.prototype.trim`: strip leading and trailing whitespace. -/
def jsTrim (s : String) : String :=
  String.mk
    (((s.toList.dropWhile Char.isWhitespace).reverse.dropWhile
        Char.isWhitespace).reverse)

/-! ## parseChineseDuration (AccountList.tsx) -/

/-- Result of `parseChineseDuration`: compact display text and total hours. -/
structure DurationResult where
  text : String
  hours : ℚ
  deriving Repr, DecidableEq

/-- `parseChineseDuration` from AccountList.tsx.  `none` models the
`undefined` argument; `!str` is also true for the empty string. -/
def parseChineseDuration : Option String → DurationResult
  | none => ⟨"N/A", 999⟩
  | some s =>
    if s = "" ∨ s = "未知" ∨ s = "N/A" then ⟨"N/A", 999⟩
    else if s = "即将重置" then ⟨"Soon", 0⟩
    else
      let days := (findNumBefore ['天'] s.toList).getD 0
      let hours := (findNumBefore ['小', '时'] s.toList).getD 0
      let mins := (findNumBefore ['分', '钟'] s.toList).getD 0
      let totalHours : ℚ := (days : ℚ) * 24 + (hours : ℚ) + (mins : ℚ) / 60
      let compactText : String :=
        if 0 < days then toString days ++ "d " ++ toString hours ++ "h"
        else if 0 < hours then toString hours ++ "h " ++ toString mins ++ "m"
        else toString mins ++ "m"
      let compactText := if compactText = "" then "N/A" else compactText
      ⟨compactText, totalHours⟩

/-- `getTimeColorClass` from AccountList.tsx. -/
def getTimeColorClass (dateStr : Option String) : String :=
  let hours := (parseChineseDuration dateStr).hours
  if hours = 999 then "neutral"
  else if hours < 1 then "success"
  else if hours < 6 then "warning"
  else "neutral"

/-- `getQuotaColor` from AccountList.tsx. -/
def getQuotaColor (percent : ℚ) : String :=
  if percent > 50 then "green"
  else if percent > 20 then "orange"
  else "red"

/-- `getColorClass` from UsageCard.tsx. -/
def getColorClass (percent : ℚ) : String :=
  if percent > 50 then "green"
  else if percent > 20 then "orange"
  else "red"

/-! ## Plan-type filtering (AccountList.tsx) -/

/-- The `UsageData` interface of AccountList.tsx. -/
structure UsageData where
  five_hour_left : ℚ
  five_hour_reset : String
  weekly_left : ℚ
  weekly_reset : String
  plan_type : String
  is_valid_for_cli : Bool
  deriving Repr, DecidableEq

/-- The `CachedQuota` interface of useAccounts.ts. -/
structure CachedQuota where
  five_hour_left : ℚ
  five_hour_reset : String
  five_hour_reset_at : Option ℚ
  weekly_left : ℚ
  weekly_reset : String
  weekly_reset_at : Option ℚ
  plan_type : String
  is_valid_for_cli : Option Bool
  updated_at : String
  deriving Repr, DecidableEq

/-- The `Account` interface of useAccounts.ts (the JSON credential payload
`auth_json` carries no structure used by this layer). -/
structure Account where
  id : String
  name : String
  auth_json : String
  created_at : String
  last_used : Option String
  notes : Option String
  cached_quota : Option CachedQuota
  deriving Repr, DecidableEq

/-- The `FilterType` union of AccountList.tsx. -/
inductive FilterType where
  | all
  | plus
  | team
  | free
  deriving Repr, DecidableEq

/-- The predicate each branch of `filteredAccounts` (and `filterCounts`)
applies to an account, given the `usageMap` record; `usageMap[a.id]` being
absent makes `usage?.plan_type?...` undefined, hence falsy. -/
def passesFilter (f : FilterType) (usageMap : String → Option UsageData)
    (a : Account) : Bool :=
  match f with
  | .all => true
  | .plus =>
    match usageMap a.id with
    | none => false
    | some u => strIncludes (jsToLower u.plan_type) "plus"
  | .team =>
    match usageMap a.id with
    | none => false
    | some u => strIncludes (jsToLower u.plan_type) "team"
  | .free =>
    let tier := ((usageMap a.id).map (fun u => jsToLower u.plan_type)).getD ""
    decide (tier ≠ "") && !strIncludes tier "plus" && !strIncludes tier "team"

/-- `filteredAccounts` from AccountList.tsx, as a function of the searched
list, the selected filter, and the usage map. -/
def filteredAccounts (searchedAccounts : List Account) (f : FilterType)
    (usageMap : String → Option UsageData) : List Account :=
  match f with
  | .all => searchedAccounts
  | .plus => searchedAccounts.filter (passesFilter .plus usageMap)
  | .team => searchedAccounts.filter (passesFilter .team usageMap)
  | .free => searchedAccounts.filter (passesFilter .free usageMap)

/-- `filterCounts` from AccountList.tsx. -/
def filterCounts (searchedAccounts : List Account)
    (usageMap : String → Option UsageData) : Nat × Nat × Nat × Nat :=
  ((searchedAccounts).length,
   (searchedAccounts.filter (passesFilter .plus usageMap)).length,
   (searchedAccounts.filter (passesFilter .team usageMap)).length,
   (searchedAccounts.filter (passesFilter .free usageMap)).length)

/-! ## Hook state (useAccounts.ts) -/

/-- The `AppSettings` interface of useAccounts.ts. -/
structure AppSettings where
  auto_reload_ide : Bool
  primary_ide : String
  use_pkill_restart : Bool
  background_refresh : Bool
  refresh_interval_minutes : Nat
  theme : String
  deriving Repr, DecidableEq

/-- The initial `useState` value for `settings` in useAccounts.ts. -/
def initialSettings : AppSettings :=
  ⟨false, "Windsurf", false, true, 30, "light"⟩

/-- The reactive state owned by `useAccounts`. -/
structure AccountsState where
  accounts : List Account
  currentId : Option String
  settings : AppSettings
  loading : Bool
  error : Option String
  deriving Repr, DecidableEq

/-- The initial `useState` values of useAccounts.ts. -/
def initialAccountsState : AccountsState :=
  ⟨[], none, initialSettings, true, none⟩

/-- The tuple the `Promise.all` of `loadData` resolves to. -/
structure LoadPayload where
  accounts : List Account
  currentId : Option String
  settings : AppSettings
  deriving Repr, DecidableEq

/-- `loadData` from useAccounts.ts; `res` is the outcome of the
`Promise.all` of the three remote calls (its first rejection, if any).
`loadData` catches internally and never rejects. -/
def loadData (st : AccountsState) (res : Except String LoadPayload) :
    AccountsState :=
  let st1 : AccountsState := { st with loading := true, error := none }
  match res with
  | .ok p =>
    { st1 with accounts := p.accounts, currentId := p.currentId,
               settings := p.settings, loading := false }
  | .error e => { st1 with error := some e, loading := false }

/-- `updateSettings` from useAccounts.ts; returns the new state and the
value/rejection the caller observes. -/
def updateSettings (st : AccountsState) (newSettings : AppSettings)
    (r : Except String Unit) : AccountsState × Except String Unit :=
  let st1 : AccountsState := { st with error := none }
  match r with
  | .ok _ => ({ st1 with settings := newSettings }, .ok ())
  | .error e => ({ st1 with error := some e }, .error e)

/-- `importCurrent` from useAccounts.ts. -/
def importCurrent (st : AccountsState) (r : Except String Unit)
    (loadRes : Except String LoadPayload) :
    AccountsState × Except String Unit :=
  let st1 : AccountsState := { st with error := none }
  match r with
  | .ok _ => (loadData st1 loadRes, .ok ())
  | .error e => ({ st1 with error := some e }, .error e)

/-- `switchTo` from useAccounts.ts: on success it sets `currentId` to the
requested id and then reloads everything. -/
def switchTo (st : AccountsState) (id : String) (r : Except String Unit)
    (loadRes : Except String LoadPayload) :
    AccountsState × Except String Unit :=
  let st1 : AccountsState := { st with error := none }
  match r with
  | .ok _ => (loadData { st1 with currentId := some id } loadRes, .ok ())
  | .error e => ({ st1 with error := some e }, .error e)

/-- `deleteAccount` from useAccounts.ts. -/
def deleteAccount (st : AccountsState) (r : Except String Unit)
    (loadRes : Except String LoadPayload) :
    AccountsState × Except String Unit :=
  let st1 : AccountsState := { st with error := none }
  match r with
  | .ok _ => (loadData st1 loadRes, .ok ())
  | .error e => ({ st1 with error := some e }, .error e)

/-- `updateAccount` from useAccounts.ts. -/
def updateAccount (st : AccountsState) (r : Except String Unit)
    (loadRes : Except String LoadPayload) :
    AccountsState × Except String Unit :=
  let st1 : AccountsState := { st with error := none }
  match r with
  | .ok _ => (loadData st1 loadRes, .ok ())
  | .error e => ({ st1 with error := some e }, .error e)

/-- `exportAccounts` from useAccounts.ts (note: no `setError(null)` before
the call). -/
def exportAccounts (st : AccountsState) (r : Except String String) :
    AccountsState × Except String String :=
  match r with
  | .ok json => (st, .ok json)
  | .error e => ({ st with error := some e }, .error e)

/-- `importAccounts` from useAccounts.ts. -/
def importAccounts (st : AccountsState) (r : Except String Unit)
    (loadRes : Except String LoadPayload) :
    AccountsState × Except String Unit :=
  let st1 : AccountsState := { st with error := none }
  match r with
  | .ok _ => (loadData st1 loadRes, .ok ())
  | .error e => ({ st1 with error := some e }, .error e)

/-- `checkCodexLogin` from useAccounts.ts: a rejection is caught and
dropped, and `false` is returned; the state is untouched. -/
def checkCodexLogin (st : AccountsState) (r : Except String Bool) :
    AccountsState × Bool :=
  match r with
  | .ok b => (st, b)
  | .error _ => (st, false)

/-- `startOAuthLogin` from useAccounts.ts. -/
def startOAuthLogin (st : AccountsState) (r : Except String String) :
    AccountsState × Except String String :=
  let st1 : AccountsState := { st with error := none }
  match r with
  | .ok url => (st1, .ok url)
  | .error e => ({ st1 with error := some e }, .error e)

/-- `finalizeOAuthLogin` from useAccounts.ts. -/
def finalizeOAuthLogin (st : AccountsState) (r : Except String Account)
    (loadRes : Except String LoadPayload) :
    AccountsState × Except String Account :=
  let st1 : AccountsState := { st with error := none }
  match r with
  | .ok account => (loadData st1 loadRes, .ok account)
  | .error e => ({ st1 with error := some e }, .error e)

/-- `reloadIdeWindows` from useAccounts.ts. -/
def reloadIdeWindows (st : AccountsState) (r : Except String (List String)) :
    AccountsState × Except String (List String) :=
  let st1 : AccountsState := { st with error := none }
  match r with
  | .ok windows => (st1, .ok windows)
  | .error e => ({ st1 with error := some e }, .error e)

/-! ## useUsage.ts -/

/-- The `UsageDisplay` interface of useUsage.ts. -/
structure UsageDisplay where
  plan_type : String
  five_hour_used : ℚ
  five_hour_left : ℚ
  five_hour_reset : String
  five_hour_reset_at : Option ℚ
  weekly_used : ℚ
  weekly_left : ℚ
  weekly_reset : String
  weekly_reset_at : Option ℚ
  credits_balance : Option ℚ
  has_credits : Bool
  deriving Repr, DecidableEq

/-- The reactive state owned by `useUsage`. -/
structure UsageState where
  usage : Option UsageDisplay
  loading : Bool
  error : Option String
  deriving Repr, DecidableEq

/-- `fetchUsage` from useUsage.ts: `idRes` is the outcome of
`get_current_account_id`, `quotaRes` gives the outcome of
`get_quota_by_id` for each id.  The source guard is `if (!currentId)`,
which takes the error path for both `null` and the falsy empty string. -/
def fetchUsage (st : UsageState) (idRes : Except String (Option String))
    (quotaRes : String → Except String UsageDisplay) : UsageState :=
  let st1 : UsageState := { st with loading := true, error := none }
  match idRes with
  | .error e => { st1 with error := some e, loading := false }
  | .ok none => { st1 with error := some "未设置当前账号", loading := false }
  | .ok (some currentId) =>
    if currentId = "" then
      { st1 with error := some "未设置当前账号", loading := false }
    else
      match quotaRes currentId with
      | .error e => { st1 with error := some e, loading := false }
      | .ok data => { st1 with usage := some data, loading := false }

/-! ## Scheduled side effects (App.tsx, AddAccountModal.tsx) -/

/-- The side effects the layer schedules with `setTimeout`. -/
inductive Effect where
  | reloadIde (useWindowReload : Bool)
  | refreshUsage
  | modalSuccessClose
  deriving Repr, DecidableEq

/-- `handleSwitch` from App.tsx, reduced to its timer schedule: if
`switchTo` rejects the rest of the handler is skipped; otherwise
`reload_ide_windows(false)` is scheduled at 300ms when
`settings.auto_reload_ide`, and a usage refresh at 500ms always. -/
def handleSwitch (settings : AppSettings) (switchRes : Except String Unit) :
    Except String (List (Nat × Effect)) :=
  match switchRes with
  | .error e => .error e
  | .ok _ =>
    .ok ((if settings.auto_reload_ide then [(300, Effect.reloadIde false)]
          else []) ++ [(500, Effect.refreshUsage)])

/-! ## AddAccountModal.tsx -/

/-- The reactive state owned by `AddAccountModal`. -/
structure ModalState where
  name : String
  notes : String
  loading : Bool
  error : Option String
  oauthStatus : String
  deriving Repr, DecidableEq

/-- The `oauth-callback-received` listener of AddAccountModal.tsx:
`finalizeRes` is the outcome of `finalizeOAuthLogin(code)`; on success the
modal schedules `onSuccess?.(); onClose();` 1000ms later. -/
def oauthCallbackReceived (st : ModalState)
    (finalizeRes : Except String Account) :
    ModalState × List (Nat × Effect) :=
  let st1 : ModalState := { st with oauthStatus := "已获取授权码，正在交换令牌..." }
  match finalizeRes with
  | .ok _ =>
    ({ st1 with oauthStatus := "授权成功！账号已添加。", loading := false },
     [(1000, Effect.modalSuccessClose)])
  | .error e =>
    ({ st1 with error := some e, oauthStatus := "", loading := false }, [])

/-- `handleOpenAILogin` from AddAccountModal.tsx; `startRes` is the
outcome of `startOAuthLogin()`. -/
def handleOpenAILogin (st : ModalState) (startRes : Except String String) :
    ModalState :=
  let st1 : ModalState :=
    { st with loading := true, error := none,
              oauthStatus := "正在启动官方浏览器授权..." }
  match startRes with
  | .ok _ =>
    { st1 with oauthStatus := "请在打开的浏览器窗口中完成 OpenAI 授权..." }
  | .error e =>
    { st1 with error := some e, oauthStatus := "", loading := false }

/-- What `handleSubmitOfficial` from AddAccountModal.tsx decides to do
before/with the remote call. -/
inductive SubmitAction where
  | showError (msg : String)
  | callImport (name : String) (notes : Option String)
  deriving Repr, DecidableEq

/-- The validation-and-argument logic of `handleSubmitOfficial`:
`if (!name.trim())` shows an inline error and returns without calling
`onAdd`; otherwise `onAdd(name.trim(), notes.trim() || undefined)`. -/
def handleSubmitOfficial (name notes : String) : SubmitAction :=
  if jsTrim name = "" then .showError "请输入账号名称"
  else .callImport (jsTrim name)
    (if jsTrim notes = "" then none else some (jsTrim notes))

/-! ## Rendering the current account (App.tsx, AccountList.tsx) -/

/-- `account.id === currentId` as rendered by App.tsx
(`accounts.find(a => a.id === currentId)`) and AccountList.tsx
(`const isCurrent = account.id === currentId`); a `null` current id
compares unequal to every string. -/
def isCurrent (currentId : Option String) (a : Account) : Bool :=
  match currentId with
  | none => false
  | some cid => a.id == cid

/-- `currentAccount` from App.tsx. -/
def currentAccount (accounts : List Account) (currentId : Option String) :
    Option Account :=
  accounts.find? (isCurrent currentId)

/-! ## handleRefreshOne (AccountList.tsx) -/

/-- JS `Set.add` on sets modelled as membership predicates. -/
def setAdd (s : String → Bool) (id : String) : String → Bool :=
  fun x => if x = id then true else s x

/-- JS `Set.delete`. -/
def setDel (s : String → Bool) (id : String) : String → Bool :=
  fun x => if x = id then false else s x

/-- JS `{ ...prev, [id]: usage }` on records modelled as maps. -/
def mapInsert (m : String → Option UsageData) (id : String) (u : UsageData) :
    String → Option UsageData :=
  fun x => if x = id then some u else m x

/-- The reactive state of AccountList.tsx touched by `handleRefreshOne`. -/
structure ListState where
  refreshingIds : String → Bool
  invalidIds : String → Bool
  usageMap : String → Option UsageData

/-- `handleRefreshOne` from AccountList.tsx; `quotaRes` is the outcome of
`get_quota_by_id(id)`. -/
def handleRefreshOne (st : ListState) (id : String)
    (quotaRes : Except String UsageData) : ListState :=
  let st1 : ListState :=
    { st with refreshingIds := setAdd st.refreshingIds id,
              invalidIds := setDel st.invalidIds id }
  let st2 : ListState :=
    match quotaRes with
    | .ok usage =>
      let st' : ListState :=
        { st1 with usageMap := mapInsert st1.usageMap id usage }
      if usage.is_valid_for_cli then st'
      else { st' with invalidIds := setAdd st'.invalidIds id }
    | .error e =>
      if strIncludes e "TOKEN_INVALID" then
        { st1 with invalidIds := setAdd st1.invalidIds id }
      else st1
  { st2 with refreshingIds := setDel st2.refreshingIds id }

/-! ## Sample data used by witnesses -/

/-- A concrete account with the given id and name. -/
def sampleAccount (i nm : String) : Account :=
  ⟨i, nm, "{}", "2024-01-01", none, none, none⟩

/-! ## Theorems -/

/-- C4: for every percentage, the quota color is "green" when the value is
strictly greater than 50, "orange" when it is strictly greater than 20 and
not greater than 50, and "red" otherwise; the AccountList implementation
(`getQuotaColor`) and the UsageCard implementation (`getColorClass`)
compute the same function. -/
theorem quota_color_thresholds (p : ℚ) :
    (50 < p → getQuotaColor p = "green")
    ∧ (20 < p ∧ p ≤ 50 → getQuotaColor p = "orange")
    ∧ (p ≤ 20 → getQuotaColor p = "red")
    ∧ getQuotaColor p = getColorClass p := by
  refine ⟨fun h => ?_, fun h => ?_, fun h => ?_, rfl⟩
  · rw [getQuotaColor, if_pos h]
  · rw [getQuotaColor, if_neg (by linarith [h.2]), if_pos h.1]
  · rw [getQuotaColor, if_neg (by linarith), if_neg (by linarith)]

/-- Witness for C4 at the concrete percentages 60, 30 and 10. -/
theorem quota_color_thresholds_witness :
    ((50 : ℚ) < 60 ∧ getQuotaColor 60 = "green")
    ∧ ((20 : ℚ) < 30 ∧ (30 : ℚ) ≤ 50 ∧ getQuotaColor 30 = "orange")
    ∧ ((10 : ℚ) ≤ 20 ∧ getQuotaColor 10 = "red") :=
  ⟨⟨by norm_num, (quota_color_thresholds 60).1 (by norm_num)⟩,
   ⟨by norm_num, by norm_num,
    (quota_color_thresholds 30).2.1 ⟨by norm_num, by norm_num⟩⟩,
   ⟨by norm_num, (quota_color_thresholds 10).2.2.1 (by norm_num)⟩⟩

/-- C5: for every reset-time string, the time color is "success" when the
parsed remaining hours are strictly below 1, "warning" when they are at
least 1 and strictly below 6, and "neutral" otherwise, including the
unknown/unparseable inputs (whose sentinel is 999 hours). -/
theorem time_color_thresholds (s : Option String) :
    ((parseChineseDuration s).hours < 1 → getTimeColorClass s = "success")
    ∧ (1 ≤ (parseChineseDuration s).hours ∧ (parseChineseDuration s).hours < 6 →
        getTimeColorClass s = "warning")
    ∧ (6 ≤ (parseChineseDuration s).hours → getTimeColorClass s = "neutral")
    ∧ (s = none ∨ s = some "未知" ∨ s = some "N/A" →
        getTimeColorClass s = "neutral") := by
  refine ⟨fun h => ?_, fun h => ?_, fun h => ?_, fun h => ?_⟩
  · have h999 : ¬(parseChineseDuration s).hours = 999 := by
      intro h9; rw [h9] at h; norm_num at h
    simp only [getTimeColorClass]
    rw [if_neg h999, if_pos h]
  · have h999 : ¬(parseChineseDuration s).hours = 999 := by
      intro h9; rw [h9] at h; norm_num at h
    simp only [getTimeColorClass]
    rw [if_neg h999, if_neg (by linarith [h.1]), if_pos h.2]
  · by_cases h9 : (parseChineseDuration s).hours = 999
    · simp only [getTimeColorClass]
      rw [if_pos h9]
    · simp only [getTimeColorClass]
      rw [if_neg h9, if_neg (by linarith), if_neg (by linarith)]
  · rcases h with h | h | h <;> subst h
    · simp only [getTimeColorClass]
      rw [if_pos (show (parseChineseDuration none).hours = 999 from rfl)]
    · simp only [getTimeColorClass]
      rw [if_pos (show (parseChineseDuration (some "未知")).hours = 999 from rfl)]
    · simp only [getTimeColorClass]
      rw [if_pos (show (parseChineseDuration (some "N/A")).hours = 999 from rfl)]

/-- The parsed hour values behind the C5 witness, evaluated from the
definitions. -/
theorem sample_duration_hours :
    (parseChineseDuration (some "30分钟")).hours = ((0 : ℕ) : ℚ) * 24 + ((0 : ℕ) : ℚ) + ((30 : ℕ) : ℚ) / 60
    ∧ (parseChineseDuration (some "3小时")).hours = ((0 : ℕ) : ℚ) * 24 + ((3 : ℕ) : ℚ) + ((0 : ℕ) : ℚ) / 60
    ∧ (parseChineseDuration (some "1天")).hours = ((1 : ℕ) : ℚ) * 24 + ((0 : ℕ) : ℚ) + ((0 : ℕ) : ℚ) / 60 :=
  ⟨rfl, rfl, rfl⟩

/-- Witness for C5 at "30分钟" (half an hour), "3小时", "1天" and `none`. -/
theorem time_color_thresholds_witness :
    ((parseChineseDuration (some "30分钟")).hours < 1
      ∧ getTimeColorClass (some "30分钟") = "success")
    ∧ (1 ≤ (parseChineseDuration (some "3小时")).hours
      ∧ (parseChineseDuration (some "3小时")).hours < 6
      ∧ getTimeColorClass (some "3小时") = "warning")
    ∧ (6 ≤ (parseChineseDuration (some "1天")).hours
      ∧ getTimeColorClass (some "1天") = "neutral")
    ∧ getTimeColorClass none = "neutral" := by
  have h30 : (parseChineseDuration (some "30分钟")).hours < 1 := by
    rw [sample_duration_hours.1]; norm_num
  have h3a : 1 ≤ (parseChineseDuration (some "3小时")).hours := by
    rw [sample_duration_hours.2.1]; norm_num
  have h3b : (parseChineseDuration (some "3小时")).hours < 6 := by
    rw [sample_duration_hours.2.1]; norm_num
  have h24 : 6 ≤ (parseChineseDuration (some "1天")).hours := by
    rw [sample_duration_hours.2.2]; norm_num
  exact ⟨⟨h30, (time_color_thresholds (some "30分钟")).1 h30⟩,
    ⟨h3a, h3b, (time_color_thresholds (some "3小时")).2.1 ⟨h3a, h3b⟩⟩,
    ⟨h24, (time_color_thresholds (some "1天")).2.2.1 h24⟩,
    (time_color_thresholds none).2.2.2 (Or.inl rfl)⟩

/-- C6: the official-import submission shows an inline error and never
invokes `import_current_account` when the trimmed name is empty; otherwise
it invokes it with the trimmed name, and with the notes omitted exactly
when the trimmed notes are empty. -/
theorem manual_import_validation (name notes : String) :
    (jsTrim name = "" →
      handleSubmitOfficial name notes = .showError "请输入账号名称"
      ∧ ∀ n o, handleSubmitOfficial name notes ≠ .callImport n o)
    ∧ (jsTrim name ≠ "" →
      handleSubmitOfficial name notes
        = .callImport (jsTrim name)
            (if jsTrim notes = "" then none else some (jsTrim notes))) := by
  constructor
  · intro h
    rw [handleSubmitOfficial, if_pos h]
    exact ⟨rfl, fun n o => by simp⟩
  · intro h
    rw [handleSubmitOfficial, if_neg h]

/-- Witness for C6 at a whitespace-only name and at a valid name with
empty notes. -/
theorem manual_import_validation_witness :
    (jsTrim " " = ""
      ∧ handleSubmitOfficial " " "x" = .showError "请输入账号名称")
    ∧ (jsTrim "a" ≠ ""
      ∧ handleSubmitOfficial "a" "" = .callImport "a" none) :=
  ⟨⟨by decide, ((manual_import_validation " " "x").1 (by decide)).1⟩,
   ⟨by decide, by
      have h := (manual_import_validation "a" "").2 (by decide)
      rw [h]; decide⟩⟩

/-- C8: the current id is a single nullable value; an account is rendered
as current exactly when its id equals that value, so two accounts rendered
as current necessarily share their id. -/
theorem at_most_one_current (cid : Option String) (a : Account) :
    (isCurrent cid a = true ↔ cid = some a.id)
    ∧ ∀ b : Account, isCurrent cid a = true → isCurrent cid b = true →
        a.id = b.id := by
  cases cid with
  | none => simp [isCurrent]
  | some c =>
    constructor
    · simp only [isCurrent, beq_iff_eq, Option.some.injEq]
      exact eq_comm
    · intro b ha hb
      simp only [isCurrent, beq_iff_eq] at ha hb
      rw [ha, hb]

/-- Witness for C8: two concrete accounts that are both rendered current
under the current id "a1" have equal ids. -/
theorem at_most_one_current_witness :
    isCurrent (some "a1") (sampleAccount "a1" "work") = true
    ∧ isCurrent (some "a1") (sampleAccount "a1" "personal") = true
    ∧ (sampleAccount "a1" "work").id = (sampleAccount "a1" "personal").id :=
  ⟨by decide, by decide,
   (at_most_one_current (some "a1") (sampleAccount "a1" "work")).2
     (sampleAccount "a1" "personal") (by decide) (by decide)⟩

/-- C9: `fetchUsage` keeps the previous usage value unless the id lookup
yields a non-falsy id and the quota call succeeds, sets a non-null error
string when the current id is null (or the falsy empty string) or either
call throws, and resets `loading` to `false` however the execution
finishes. -/
theorem fetch_usage_only_on_success (st : UsageState)
    (quotaRes : String → Except String UsageDisplay) :
    (∀ e, (fetchUsage st (.error e) quotaRes).usage = st.usage
        ∧ (fetchUsage st (.error e) quotaRes).error = some e)
    ∧ ((fetchUsage st (.ok none) quotaRes).usage = st.usage
        ∧ (fetchUsage st (.ok none) quotaRes).error = some "未设置当前账号")
    ∧ ((fetchUsage st (.ok (some "")) quotaRes).usage = st.usage
        ∧ (fetchUsage st (.ok (some "")) quotaRes).error
            = some "未设置当前账号")
    ∧ (∀ cid e, cid ≠ "" → quotaRes cid = .error e →
        (fetchUsage st (.ok (some cid)) quotaRes).usage = st.usage
        ∧ (fetchUsage st (.ok (some cid)) quotaRes).error = some e)
    ∧ (∀ cid d, cid ≠ "" → quotaRes cid = .ok d →
        (fetchUsage st (.ok (some cid)) quotaRes).usage = some d
        ∧ (fetchUsage st (.ok (some cid)) quotaRes).error = none)
    ∧ (∀ idRes, (fetchUsage st idRes quotaRes).usage ≠ st.usage →
        ∃ cid d, idRes = .ok (some cid) ∧ cid ≠ "" ∧ quotaRes cid = .ok d
          ∧ (fetchUsage st idRes quotaRes).usage = some d)
    ∧ (∀ idRes, (fetchUsage st idRes quotaRes).loading = false) := by
  refine ⟨fun e => ⟨rfl, rfl⟩, ⟨rfl, rfl⟩, ⟨by simp [fetchUsage],
    by simp [fetchUsage]⟩, fun cid e hc h => ?_, fun cid d hc h => ?_,
    fun idRes hch => ?_, fun idRes => ?_⟩
  · simp [fetchUsage, hc, h]
  · simp [fetchUsage, hc, h]
  · match idRes with
    | .error e => exact absurd rfl hch
    | .ok none => exact absurd rfl hch
    | .ok (some cid) =>
      by_cases hc : cid = ""
      · subst hc
        exact absurd (by simp [fetchUsage]) hch
      · match hq : quotaRes cid with
        | .error e => exact absurd (by simp [fetchUsage, hc, hq]) hch
        | .ok d => exact ⟨cid, d, rfl, hc, hq, by simp [fetchUsage, hc, hq]⟩
  · match idRes with
    | .error e => rfl
    | .ok none => rfl
    | .ok (some cid) =>
      by_cases hc : cid = ""
      · subst hc; simp [fetchUsage]
      · match hq : quotaRes cid with
        | .error e => simp [fetchUsage, hc, hq]
        | .ok d => simp [fetchUsage, hc, hq]

/-- The initial `useState` values of useUsage.ts. -/
def initialUsageState : UsageState := ⟨none, false, none⟩

/-- A concrete quota outcome map for the C9 witness: only account "a1"
has a quota, every other id rejects. -/
def sampleQuotaRes : String → Except String UsageDisplay :=
  fun i => if i = "a1" then .ok ⟨"plus", 10, 90, "3小时", none, 20, 80, "2天", none, none, false⟩
           else .error "TOKEN_INVALID: refresh failed"

/-- Witness for C9: a rejecting quota call for the non-empty account id
"b2" leaves the usage unchanged and surfaces the stringified error. -/
theorem fetch_usage_only_on_success_witness :
    ("b2" : String) ≠ ""
    ∧ sampleQuotaRes "b2" = .error "TOKEN_INVALID: refresh failed"
    ∧ (fetchUsage initialUsageState (.ok (some "b2")) sampleQuotaRes).usage
        = initialUsageState.usage
    ∧ (fetchUsage initialUsageState (.ok (some "b2")) sampleQuotaRes).error
        = some "TOKEN_INVALID: refresh failed" :=
  ⟨by decide, rfl,
   ((fetch_usage_only_on_success initialUsageState sampleQuotaRes).2.2.2.1
      "b2" "TOKEN_INVALID: refresh failed" (by decide) rfl).1,
   ((fetch_usage_only_on_success initialUsageState sampleQuotaRes).2.2.2.1
      "b2" "TOKEN_INVALID: refresh failed" (by decide) rfl).2⟩

/-- C10: after `handleRefreshOne st id quotaRes`, `id` is in the
invalid-account set exactly when the quota call returned a result with
`is_valid_for_cli` false or threw an error whose string form contains
"TOKEN_INVALID"; and `id` is always removed from the refreshing set. -/
theorem refresh_one_invalid_iff (st : ListState) (id : String)
    (quotaRes : Except String UsageData) :
    ((handleRefreshOne st id quotaRes).invalidIds id = true ↔
      (∃ u, quotaRes = Except.ok u ∧ u.is_valid_for_cli = false)
      ∨ (∃ e, quotaRes = Except.error e
          ∧ strIncludes e "TOKEN_INVALID" = true))
    ∧ (handleRefreshOne st id quotaRes).refreshingIds id = false := by
  constructor
  · match quotaRes with
    | .ok u =>
      cases hv : u.is_valid_for_cli with
      | true => simp [handleRefreshOne, hv, setAdd, setDel]
      | false => simp [handleRefreshOne, hv, setAdd, setDel]
    | .error e =>
      cases ht : strIncludes e "TOKEN_INVALID" with
      | true => simp [handleRefreshOne, ht, setAdd, setDel]
      | false => simp [handleRefreshOne, ht, setAdd, setDel]
  · match quotaRes with
    | .ok u =>
      cases hv : u.is_valid_for_cli <;>
        simp [handleRefreshOne, hv, setAdd, setDel]
    | .error e =>
      cases ht : strIncludes e "TOKEN_INVALID" <;>
        simp [handleRefreshOne, ht, setAdd, setDel]

/-- C7: after a successful switch, `reload_ide_windows(false)` is on the
300ms schedule exactly when `auto_reload_ide` is set, the usage refresh is
on the 500ms schedule unconditionally, a failed switch schedules nothing,
and the modal schedules its success/close callbacks 1000ms after a
successful `finalize_oauth_login` and nothing after a failed one. -/
theorem fixed_delay_side_effects (settings : AppSettings)
    (l : List (Nat × Effect)) (h : handleSwitch settings (.ok ()) = .ok l) :
    ((300, Effect.reloadIde false) ∈ l ↔ settings.auto_reload_ide = true)
    ∧ (500, Effect.refreshUsage) ∈ l
    ∧ (∀ e, handleSwitch settings (.error e) = .error e)
    ∧ (∀ (st : ModalState) (acc : Account),
        (oauthCallbackReceived st (.ok acc)).2
          = [(1000, Effect.modalSuccessClose)])
    ∧ (∀ (st : ModalState) e, (oauthCallbackReceived st (.error e)).2 = []) := by
  have hl : l = (if settings.auto_reload_ide
      then [(300, Effect.reloadIde false)] else [])
      ++ [(500, Effect.refreshUsage)] := by
    simpa [handleSwitch] using h.symm
  subst hl
  refine ⟨?_, ?_, fun e => rfl, fun st acc => rfl, fun st e => rfl⟩
  · cases hb : settings.auto_reload_ide <;> simp
  · cases hb : settings.auto_reload_ide <;> simp

/-- Settings with the IDE auto-reload enabled, for the C7 witness. -/
def settingsAutoReload : AppSettings :=
  { initialSettings with auto_reload_ide := true }

/-- Witness for C7 at concrete settings with `auto_reload_ide` on. -/
theorem fixed_delay_side_effects_witness :
    handleSwitch settingsAutoReload (.ok ())
      = .ok [(300, Effect.reloadIde false), (500, Effect.refreshUsage)]
    ∧ ((300, Effect.reloadIde false)
        ∈ [(300, Effect.reloadIde false), (500, Effect.refreshUsage)]
      ↔ settingsAutoReload.auto_reload_ide = true) :=
  ⟨rfl, (fixed_delay_side_effects settingsAutoReload
    [(300, Effect.reloadIde false), (500, Effect.refreshUsage)] rfl).1⟩

/-- C1 (amended): every remote-call operation of this layer except
`checkCodexLogin` and `handleRefreshOne` stores the stringified rejection
in a visible error state — the `error` banner of useAccounts, the `error`
of useUsage (for both of its remote calls), or the modal's inline `error`
— and the OAuth operations additionally reset `oauthStatus` to the empty
string; `checkCodexLogin` catches the rejection but discards it, returning
`false` and leaving the state untouched, and `handleRefreshOne` catches
the rejection, logs its string only to the console, marks the account
invalid exactly when that string contains "TOKEN_INVALID", and stores it
in no visible error state (its quota map is left unchanged). -/
theorem remote_errors_surfaced :
    (∀ st e, (loadData st (.error e)).error = some e)
    ∧ (∀ st ns e, (updateSettings st ns (.error e)).1.error = some e
        ∧ (updateSettings st ns (.error e)).2 = .error e)
    ∧ (∀ st e lr, (importCurrent st (.error e) lr).1.error = some e
        ∧ (importCurrent st (.error e) lr).2 = .error e)
    ∧ (∀ st id e lr, (switchTo st id (.error e) lr).1.error = some e
        ∧ (switchTo st id (.error e) lr).2 = .error e)
    ∧ (∀ st e lr, (deleteAccount st (.error e) lr).1.error = some e)
    ∧ (∀ st e lr, (updateAccount st (.error e) lr).1.error = some e)
    ∧ (∀ st e, (exportAccounts st (.error e)).1.error = some e)
    ∧ (∀ st e lr, (importAccounts st (.error e) lr).1.error = some e)
    ∧ (∀ st e, (startOAuthLogin st (.error e)).1.error = some e)
    ∧ (∀ st e lr, (finalizeOAuthLogin st (.error e) lr).1.error = some e)
    ∧ (∀ st e, (reloadIdeWindows st (.error e)).1.error = some e)
    ∧ (∀ st q e, (fetchUsage st (.error e) q).error = some e)
    ∧ (∀ st cid e, (fetchUsage st (.ok (some cid))
          (fun _ => .error e)).error
        = some (if cid = "" then "未设置当前账号" else e))
    ∧ (∀ st e, (handleOpenAILogin st (.error e)).error = some e
        ∧ (handleOpenAILogin st (.error e)).oauthStatus = "")
    ∧ (∀ st e, ((oauthCallbackReceived st (.error e)).1).error = some e
        ∧ ((oauthCallbackReceived st (.error e)).1).oauthStatus = "")
    ∧ (∀ st e, checkCodexLogin st (.error e) = (st, false))
    ∧ (∀ st id e, (handleRefreshOne st id (.error e)).invalidIds id
        = strIncludes e "TOKEN_INVALID")
    ∧ (∀ st id e, (handleRefreshOne st id (.error e)).usageMap
        = st.usageMap) := by
  refine ⟨fun _ _ => rfl, fun _ _ _ => ⟨rfl, rfl⟩, fun _ _ _ => ⟨rfl, rfl⟩,
    fun _ _ _ _ => ⟨rfl, rfl⟩, fun _ _ _ => rfl, fun _ _ _ => rfl,
    fun _ _ => rfl, fun _ _ _ => rfl, fun _ _ => rfl, fun _ _ _ => rfl,
    fun _ _ => rfl, fun _ _ _ => rfl, fun st cid e => ?_,
    fun _ _ => ⟨rfl, rfl⟩, fun _ _ => ⟨rfl, rfl⟩, fun _ _ => rfl,
    fun st id e => ?_, fun st id e => ?_⟩
  · by_cases hc : cid = ""
    · subst hc; simp [fetchUsage]
    · simp [fetchUsage, hc]
  · cases ht : strIncludes e "TOKEN_INVALID" <;>
      simp [handleRefreshOne, ht, setAdd, setDel]
  · cases ht : strIncludes e "TOKEN_INVALID" <;>
      simp [handleRefreshOne, ht]

/-- The AccountList state with empty sets and no quota entries, for the
C1 counterexample. -/
def emptyListState : ListState :=
  ⟨fun _ => false, fun _ => false, fun _ => none⟩

/-- Counterexample to C1 as stated: two remote call sites of this layer
catch a rejection ("boom") without storing its string in any visible
error state.  `checkCodexLogin` returns `false` and leaves the hook state
unchanged with `error` still `none`; `handleRefreshOne` (whose component
state has no error field at all — the string goes only to the console)
ends with the account neither marked invalid nor left refreshing and its
quota entry untouched. -/
theorem unsurfaced_rejections :
    ((checkCodexLogin initialAccountsState (Except.error "boom")).1.error
        = none
      ∧ (checkCodexLogin initialAccountsState (Except.error "boom")).2
        = false
      ∧ (checkCodexLogin initialAccountsState (Except.error "boom")).1
        = initialAccountsState)
    ∧ ((handleRefreshOne emptyListState "a1"
          (Except.error "boom")).invalidIds "a1" = false
      ∧ (handleRefreshOne emptyListState "a1"
          (Except.error "boom")).usageMap "a1" = none
      ∧ (handleRefreshOne emptyListState "a1"
          (Except.error "boom")).refreshingIds "a1" = false) :=
  ⟨⟨rfl, rfl, rfl⟩, ⟨rfl, rfl, rfl⟩⟩

/-- C3: plan-type filtering is case-insensitive — for an account with a
usage entry, the plus/team filters pass exactly when the lowercased
plan_type contains the filter word, the free filter passes exactly when
the lowercased plan_type is non-empty and contains neither word, the
outcome is unchanged when the stored plan_type is replaced by any string
with the same lowercasing, membership in `filteredAccounts` is exactly
membership in the searched list plus passing the filter, and
`filterCounts` counts with the same predicates. -/
theorem plan_filter_case_insensitive (usageMap : String → Option UsageData)
    (a : Account) (u : UsageData) (h : usageMap a.id = some u) :
    (passesFilter .plus usageMap a
      = strIncludes (jsToLower u.plan_type) "plus")
    ∧ (passesFilter .team usageMap a
      = strIncludes (jsToLower u.plan_type) "team")
    ∧ (passesFilter .free usageMap a
      = (decide (jsToLower u.plan_type ≠ "")
         && !strIncludes (jsToLower u.plan_type) "plus"
         && !strIncludes (jsToLower u.plan_type) "team"))
    ∧ (∀ v : UsageData, jsToLower v.plan_type = jsToLower u.plan_type →
        ∀ f : FilterType,
          passesFilter f (fun x => if x = a.id then some v else usageMap x) a
            = passesFilter f usageMap a)
    ∧ (∀ (s : List Account) (f : FilterType) (b : Account),
        b ∈ filteredAccounts s f usageMap
          ↔ b ∈ s ∧ passesFilter f usageMap b = true)
    ∧ (∀ s : List Account, filterCounts s usageMap
        = (s.length, (s.filter (passesFilter .plus usageMap)).length,
           (s.filter (passesFilter .team usageMap)).length,
           (s.filter (passesFilter .free usageMap)).length)) := by
  refine ⟨?_, ?_, ?_, fun v hv f => ?_, fun s f b => ?_, fun s => rfl⟩
  · simp [passesFilter, h]
  · simp [passesFilter, h]
  · simp [passesFilter, h]
  · cases f <;> simp [passesFilter, h, hv]
  · cases f <;> simp [filteredAccounts, List.mem_filter, passesFilter]

/-- A plan stored with upper-case letters, for the C3 witness. -/
def usagePlusSample : UsageData := ⟨90, "3小时", 80, "2天", "PLUS", true⟩

/-- A concrete usage map for the C3 witness: only account "a1" has an
entry. -/
def usageMapSample : String → Option UsageData :=
  fun x => if x = "a1" then some usagePlusSample else none

/-- Witness for C3: the account "a1", whose stored plan_type is "PLUS",
passes the plus filter because its lowercasing contains "plus". -/
theorem plan_filter_case_insensitive_witness :
    usageMapSample (sampleAccount "a1" "work").id = some usagePlusSample
    ∧ passesFilter .plus usageMapSample (sampleAccount "a1" "work")
        = strIncludes (jsToLower usagePlusSample.plan_type) "plus"
    ∧ strIncludes (jsToLower usagePlusSample.plan_type) "plus" = true :=
  ⟨rfl,
   (plan_filter_case_insensitive usageMapSample (sampleAccount "a1" "work")
      usagePlusSample rfl).1,
   rfl⟩

/-! ## Lemmas about the regex-match scanner, for C2 -/

/-- Splitting `takeWhile`/`dropWhile Char.isDigit` around an all-digit
prefix followed by a non-digit (or empty) tail. -/
theorem takeWhile_digits_append (ds after : List Char)
    (hdig : ∀ c ∈ ds, c.isDigit = true)
    (hafter : ∀ c l', after = c :: l' → c.isDigit = false) :
    List.takeWhile Char.isDigit (ds ++ after) = ds
    ∧ List.dropWhile Char.isDigit (ds ++ after) = after := by
  induction ds with
  | nil =>
    simp only [List.nil_append]
    cases after with
    | nil => simp
    | cons c l' =>
      have hc : c.isDigit = false := hafter c l' rfl
      exact ⟨List.takeWhile_cons_of_neg (by simp [hc]),
             List.dropWhile_cons_of_neg (by simp [hc])⟩
  | cons d ds ih =>
    have hd : d.isDigit = true := hdig d (List.mem_cons_self _ _)
    have ih' := ih (fun c hc => hdig c (List.mem_cons_of_mem _ hc))
    simp only [List.cons_append]
    exact ⟨by rw [List.takeWhile_cons_of_pos (by simp [hd]), ih'.1],
           by rw [List.dropWhile_cons_of_pos (by simp [hd]), ih'.2]⟩

/-- A non-digit head is skipped by the scanner. -/
theorem findNumBefore_cons_nondigit (tok : List Char) (c : Char)
    (rest : List Char) (hc : c.isDigit = false) :
    findNumBefore tok (c :: rest) = findNumBefore tok rest := by
  simp [findNumBefore, hc]

/-- Scanning an all-digit run followed by a non-digit tail either matches
the whole run (when the token follows it) or moves on to the tail. -/
theorem findNumBefore_digits_append (tok after : List Char)
    (hafter : ∀ c l', after = c :: l' → c.isDigit = false) :
    ∀ ds : List Char, ds ≠ [] → (∀ c ∈ ds, c.isDigit = true) →
      findNumBefore tok (ds ++ after)
        = if List.isPrefixOf tok after then some (digitsToNat ds)
          else findNumBefore tok after := by
  intro ds
  induction ds with
  | nil => intro h _; exact absurd rfl h
  | cons d ds ih =>
    intro _ hdig
    have hd : d.isDigit = true := hdig d (List.mem_cons_self _ _)
    have htd := takeWhile_digits_append (d :: ds) after hdig hafter
    rw [List.cons_append, findNumBefore, if_pos hd, ← List.cons_append,
      htd.1, htd.2]
    cases hpre : List.isPrefixOf tok after with
    | true => simp [hpre]
    | false =>
      simp only [hpre, Bool.false_eq_true, if_false]
      cases ds with
      | nil => simp
      | cons d' ds' =>
        rw [ih (by simp) (fun c hc => hdig c (List.mem_cons_of_mem _ hc)),
          if_neg (by simp [hpre])]

/-- C2: the duration parser is deterministic: the sentinel inputs
`undefined`, "未知" and "N/A" give text "N/A" with 999 hours, "即将重置"
gives text "Soon" with 0 hours, and an input of the form
"<d>天<h>小时<m>分钟" (with `ds`, `hs`, `ms` the decimal digit strings of
d, h, m) parses to exactly d*24 + h + m/60 total hours. -/
theorem duration_parse_spec (ds hs ms : List Char)
    (hds : ds ≠ [] ∧ ∀ c ∈ ds, c.isDigit = true)
    (hhs : hs ≠ [] ∧ ∀ c ∈ hs, c.isDigit = true)
    (hms : ms ≠ [] ∧ ∀ c ∈ ms, c.isDigit = true) :
    parseChineseDuration none = ⟨"N/A", 999⟩
    ∧ parseChineseDuration (some "未知") = ⟨"N/A", 999⟩
    ∧ parseChineseDuration (some "N/A") = ⟨"N/A", 999⟩
    ∧ parseChineseDuration (some "即将重置") = ⟨"Soon", 0⟩
    ∧ (parseChineseDuration (some (String.mk
        (ds ++ '天' :: (hs ++ '小' :: '时' :: (ms ++ ['分', '钟'])))))).hours
      = (digitsToNat ds : ℚ) * 24 + (digitsToNat hs : ℚ)
        + (digitsToNat ms : ℚ) / 60 := by
  obtain ⟨hdne, hdd⟩ := hds
  obtain ⟨hhne, hhd⟩ := hhs
  obtain ⟨hmne, hmd⟩ := hms
  refine ⟨rfl, rfl, rfl, rfl, ?_⟩
  obtain ⟨d, ds', rfl⟩ := List.exists_cons_of_ne_nil hdne
  have hd : d.isDigit = true := hdd d (List.mem_cons_self _ _)
  -- the scanned list and its two suffixes
  set r2 : List Char := ms ++ ['分', '钟'] with hr2
  set r1 : List Char := hs ++ '小' :: '时' :: r2 with hr1
  set L : List Char := (d :: ds') ++ '天' :: r1 with hL
  -- the three sentinel string comparisons are all false: L starts with a
  -- digit and each sentinel starts with a non-digit (or is empty)
  have hemp : ¬String.mk L = "" := by
    intro h
    have h2 : L = [] := congrArg String.data h
    simp [hL] at h2
  have hsent : ∀ (c : Char) (r : List Char), c.isDigit = false →
      ¬String.mk L = String.mk (c :: r) := by
    intro c r hc h
    have h2 : L = c :: r := congrArg String.data h
    rw [hL, List.cons_append] at h2
    have h3 : d = c := by injection h2
    rw [h3, hc] at hd
    exact Bool.false_ne_true hd
  have hne1 : ¬String.mk L = "未知" := hsent '未' ['知'] (by decide)
  have hne2 : ¬String.mk L = "N/A" := hsent 'N' ['/', 'A'] (by decide)
  have hne3 : ¬String.mk L = "即将重置" :=
    hsent '即' ['将', '重', '置'] (by decide)
  -- evaluate the three regex matches on L
  have ht : (String.mk L).toList = L := rfl
  have haft1 : ∀ c l', ('天' :: r1 : List Char) = c :: l' →
      c.isDigit = false := by
    intro c l' hh
    have hc : '天' = c := by injection hh
    rw [← hc]; decide
  have haft2 : ∀ c l', ('小' :: '时' :: r2 : List Char) = c :: l' →
      c.isDigit = false := by
    intro c l' hh
    have hc : '小' = c := by injection hh
    rw [← hc]; decide
  have haft3 : ∀ c l', (['分', '钟'] : List Char) = c :: l' →
      c.isDigit = false := by
    intro c l' hh
    have hc : '分' = c := by injection hh
    rw [← hc]; decide
  have e1 : findNumBefore ['天'] L = some (digitsToNat (d :: ds')) := by
    rw [hL, findNumBefore_digits_append ['天'] ('天' :: r1) haft1 (d :: ds')
      (by simp) hdd, if_pos (by simp [List.isPrefixOf])]
  have e2 : findNumBefore ['小', '时'] L = some (digitsToNat hs) := by
    rw [hL, findNumBefore_digits_append ['小', '时'] ('天' :: r1) haft1
        (d :: ds') (by simp) hdd,
      if_neg (by simp [List.isPrefixOf]),
      findNumBefore_cons_nondigit _ _ _ (by decide), hr1,
      findNumBefore_digits_append ['小', '时'] ('小' :: '时' :: r2) haft2 hs
        hhne hhd,
      if_pos (by simp [List.isPrefixOf])]
  have e3 : findNumBefore ['分', '钟'] L = some (digitsToNat ms) := by
    rw [hL, findNumBefore_digits_append ['分', '钟'] ('天' :: r1) haft1
        (d :: ds') (by simp) hdd,
      if_neg (by simp [List.isPrefixOf]),
      findNumBefore_cons_nondigit _ _ _ (by decide), hr1,
      findNumBefore_digits_append ['分', '钟'] ('小' :: '时' :: r2) haft2 hs
        hhne hhd,
      if_neg (by simp [List.isPrefixOf]),
      findNumBefore_cons_nondigit _ _ _ (by decide),
      findNumBefore_cons_nondigit _ _ _ (by decide), hr2,
      findNumBefore_digits_append ['分', '钟'] ['分', '钟'] haft3 ms
        hmne hmd,
      if_pos (by simp [List.isPrefixOf])]
  simp [parseChineseDuration, hemp, hne1, hne2, hne3, ht, e1, e2, e3]

/-- Witness for C2 at the concrete input "3天5小时30分钟": the parsed total
is 3*24 + 5 + 30/60 hours. -/
theorem duration_parse_spec_witness :
    ((['3'] : List Char) ≠ [] ∧ ∀ c ∈ (['3'] : List Char), c.isDigit = true)
    ∧ ((['5'] : List Char) ≠ []
        ∧ ∀ c ∈ (['5'] : List Char), c.isDigit = true)
    ∧ ((['3', '0'] : List Char) ≠ []
        ∧ ∀ c ∈ (['3', '0'] : List Char), c.isDigit = true)
    ∧ (parseChineseDuration (some (String.mk
        (['3'] ++ '天' :: (['5'] ++ '小' :: '时' :: (['3', '0'] ++ ['分', '钟'])))))).hours
      = (digitsToNat ['3'] : ℚ) * 24 + (digitsToNat ['5'] : ℚ)
        + (digitsToNat ['3', '0'] : ℚ) / 60 :=
  ⟨⟨by decide, by decide⟩, ⟨by decide, by decide⟩, ⟨by decide, by decide⟩,
   (duration_parse_spec ['3'] ['5'] ['3', '0'] ⟨by decide, by decide⟩
     ⟨by decide, by decide⟩ ⟨by decide, by decide⟩).2.2.2.2⟩

end CodexSwitcher
